import Mathlib

/-!
Verification of the globe-projection and field-interpolation engine
(src/src/models/globes.js) against its natural-language specification.

JavaScript numbers are modelled as the inductive type JsNumber: either NaN,
positive infinity, negative infinity, or a finite value represented as a
rational.  Fallible operations return Option; in-place mutation is modelled
by returning the updated value.  External collaborators (d3 projections, the
grid samplers, the pointer-event stream, the random source) enter the model
as explicit function parameters, so every theorem quantifies over all of
their possible behaviors.
-/

namespace Globes

/-- Model of a JavaScript number: NaN, plus or minus infinity, or a finite
value (represented exactly as a rational). -/
inductive JsNumber where
  | nan : JsNumber
  | posInf : JsNumber
  | negInf : JsNumber
  | fin (q : ℚ) : JsNumber
deriving DecidableEq, Repr

namespace JsNumber

/-- Truth of the underscore isFinite test (false on NaN and both infinities),
as used by globes.js via its underscore import. -/
def isFinite : JsNumber → Bool
  | .fin _ => true
  | _ => false

/-- JS Math.floor: acts on the finite part, fixes NaN and the infinities. -/
def jsFloor : JsNumber → JsNumber
  | .fin q => .fin (⌊q⌋ : ℚ)
  | x => x

/-- JS Math.ceil: acts on the finite part, fixes NaN and the infinities. -/
def jsCeil : JsNumber → JsNumber
  | .fin q => .fin (⌈q⌉ : ℚ)
  | x => x

/-- JS Math.max on two numbers: NaN absorbs, positive infinity dominates. -/
def jsMax2 : JsNumber → JsNumber → JsNumber
  | .nan, _ => .nan
  | _, .nan => .nan
  | .posInf, _ => .posInf
  | _, .posInf => .posInf
  | .negInf, y => y
  | x, .negInf => x
  | .fin p, .fin q => .fin (max p q)

/-- JS Math.min on two numbers: NaN absorbs, negative infinity dominates. -/
def jsMin2 : JsNumber → JsNumber → JsNumber
  | .nan, _ => .nan
  | _, .nan => .nan
  | .negInf, _ => .negInf
  | _, .negInf => .negInf
  | .posInf, y => y
  | x, .posInf => x
  | .fin p, .fin q => .fin (min p q)

/-- JS subtraction: NaN absorbs, infinity minus same-signed infinity is NaN. -/
def jsSub : JsNumber → JsNumber → JsNumber
  | .nan, _ => .nan
  | _, .nan => .nan
  | .posInf, .posInf => .nan
  | .posInf, _ => .posInf
  | .negInf, .negInf => .nan
  | .negInf, _ => .negInf
  | .fin _, .posInf => .negInf
  | .fin _, .negInf => .posInf
  | .fin p, .fin q => .fin (p - q)

/-- JS addition: NaN absorbs, infinity plus opposite-signed infinity is NaN. -/
def jsAdd : JsNumber → JsNumber → JsNumber
  | .nan, _ => .nan
  | _, .nan => .nan
  | .posInf, .negInf => .nan
  | .posInf, _ => .posInf
  | .negInf, .posInf => .nan
  | .negInf, _ => .negInf
  | .fin _, .posInf => .posInf
  | .fin _, .negInf => .negInf
  | .fin p, .fin q => .fin (p + q)

/-- Truth of the JS comparison a <= b (false whenever either side is NaN). -/
def jsLeb : JsNumber → JsNumber → Bool
  | .nan, _ => false
  | _, .nan => false
  | .negInf, _ => true
  | _, .negInf => false
  | _, .posInf => true
  | .posInf, _ => false
  | .fin p, .fin q => decide (p ≤ q)

end JsNumber

/-- The view rectangle, in pixels: an object with width and height fields.
The dimensions are modelled as (finite) rationals. -/
structure View where
  width : ℚ
  height : ℚ
deriving DecidableEq, Repr

/-- Source ensureNumber: returns num when underscore isFinite accepts it or
it is plus or minus Infinity, otherwise the fallback.  Only NaN (among JS
numbers) is replaced by the fallback; the infinities pass through. -/
def ensureNumber (num : JsNumber) (fallback : ℚ) : JsNumber :=
  match num with
  | .nan => .fin fallback
  | x => x

/-- Result record of clampedBounds: corners plus derived width and height. -/
structure CBounds where
  x : JsNumber
  y : JsNumber
  xMax : JsNumber
  yMax : JsNumber
  width : JsNumber
  height : JsNumber
deriving DecidableEq, Repr

/-- Source clampedBounds: clamp the projection bounds, given as the pair of
corners ((x0, y0), (x1, y1)), into the view rectangle and derive width and
height as xMax - x + 1 and yMax - y + 1. -/
def clampedBounds (bounds : (JsNumber × JsNumber) × (JsNumber × JsNumber))
    (view : View) : CBounds :=
  let upperLeft := bounds.1
  let lowerRight := bounds.2
  let x := JsNumber.jsMax2 (JsNumber.jsFloor (ensureNumber upperLeft.1 0)) (.fin 0)
  let y := JsNumber.jsMax2 (JsNumber.jsFloor (ensureNumber upperLeft.2 0)) (.fin 0)
  let xMax := JsNumber.jsMin2 (JsNumber.jsCeil (ensureNumber lowerRight.1 view.width))
    (.fin (view.width - 1))
  let yMax := JsNumber.jsMin2 (JsNumber.jsCeil (ensureNumber lowerRight.2 view.height))
    (.fin (view.height - 1))
  { x := x, y := y, xMax := xMax, yMax := yMax,
    width := JsNumber.jsAdd (JsNumber.jsSub xMax x) (.fin 1),
    height := JsNumber.jsAdd (JsNumber.jsSub yMax y) (.fin 1) }

/-- Helper: along one axis, the clamped extent xMax - x + 1 never exceeds the
view extent, whatever the raw corner components are (including NaN and the
infinities). -/
lemma clampedAxis_le (ul lr : JsNumber) (w : ℚ) :
    JsNumber.jsLeb
      (JsNumber.jsAdd
        (JsNumber.jsSub
          (JsNumber.jsMin2 (JsNumber.jsCeil (ensureNumber lr w)) (.fin (w - 1)))
          (JsNumber.jsMax2 (JsNumber.jsFloor (ensureNumber ul 0)) (.fin 0)))
        (.fin 1))
      (.fin w) = true := by
  have key : ∀ t s : ℚ, t ≤ w - 1 → 0 ≤ s → t - s + 1 ≤ w := by
    intro t s ht hs; linarith
  cases ul <;> cases lr <;>
    simp only [ensureNumber, JsNumber.jsFloor, JsNumber.jsCeil, JsNumber.jsMax2,
      JsNumber.jsMin2, JsNumber.jsSub, JsNumber.jsAdd, JsNumber.jsLeb,
      decide_eq_true_eq] <;>
    refine key _ _ ?_ ?_ <;>
    first
      | exact min_le_right _ _
      | exact le_max_right _ _
      | exact le_rfl

/-- Helper: along one axis, when the fallback-adjusted corner components are
finite values a and c with a ≤ c, a ≤ w - 1, -1 ≤ c and 0 ≤ w, the clamped
extent is nonnegative. -/
lemma clampedAxis_nonneg (a c w : ℚ) (hac : a ≤ c) (haw : a ≤ w - 1)
    (hc : -1 ≤ c) (hw : 0 ≤ w) :
    JsNumber.jsLeb (.fin 0)
      (JsNumber.jsAdd
        (JsNumber.jsSub
          (JsNumber.jsMin2 (JsNumber.jsCeil (.fin c)) (.fin (w - 1)))
          (JsNumber.jsMax2 (JsNumber.jsFloor (.fin a)) (.fin 0)))
        (.fin 1)) = true := by
  simp only [JsNumber.jsFloor, JsNumber.jsCeil, JsNumber.jsMax2, JsNumber.jsMin2,
    JsNumber.jsSub, JsNumber.jsAdd, JsNumber.jsLeb, decide_eq_true_eq]
  have hfa : (⌊a⌋ : ℚ) ≤ a := Int.floor_le a
  have hcc : c ≤ (⌈c⌉ : ℚ) := Int.le_ceil c
  have hmin1 : (⌊a⌋ : ℚ) - 1 ≤ min ((⌈c⌉ : ℚ)) (w - 1) :=
    le_min (by linarith) (by linarith)
  have hmin2 : (-1 : ℚ) ≤ min ((⌈c⌉ : ℚ)) (w - 1) :=
    le_min (by linarith) (by linarith)
  have hmax : max ((⌊a⌋ : ℚ)) 0 ≤ min ((⌈c⌉ : ℚ)) (w - 1) + 1 :=
    max_le (by linarith) (by linarith)
  linarith [hmax]

/-- Claim C1 is false as stated: the claimed invariant width ≥ 0 fails when
the (finite, well-ordered) projection bounding box lies entirely outside the
view, and a positive-infinity lower-corner component does not fall back to 0
but propagates through the clamping.  Concretely, for the box
((5, 0), (10, 0)) in a 3-by-3 view the computed width is -2, and for a box
whose upper-left x is +Infinity the clamped x stays +Infinity. -/
theorem C1_clampedBounds_counterexample :
    (clampedBounds ((.fin 5, .fin 0), (.fin 10, .fin 0)) ⟨3, 3⟩).width = .fin (-2) ∧
    JsNumber.jsLeb (.fin 0)
      (clampedBounds ((.fin 5, .fin 0), (.fin 10, .fin 0)) ⟨3, 3⟩).width = false ∧
    (clampedBounds ((.posInf, .fin 0), (.fin 10, .fin 0)) ⟨3, 3⟩).x = .posInf := by
  refine ⟨?_, ?_, ?_⟩ <;>
    simp only [clampedBounds, ensureNumber, JsNumber.jsFloor, JsNumber.jsCeil,
      JsNumber.jsMax2, JsNumber.jsMin2, JsNumber.jsSub, JsNumber.jsAdd,
      JsNumber.jsLeb, JsNumber.fin.injEq] <;>
    norm_num

/-- Claim C1, amended.  For every projection bounds pair and view:
the width and height of clampedBounds never exceed the view width and height
(this much is unconditional); width and height are nonnegative provided the
fallback-adjusted bounding box is finite, well ordered and overlaps the view
rectangle (without that proviso they can be negative); and only NaN bound
components fall back (to 0 for the lower corner, to the view extent for the
upper corner) — the infinities pass through ensureNumber unchanged. -/
theorem C1_clampedBounds_amended :
    ∀ (bounds : (JsNumber × JsNumber) × (JsNumber × JsNumber)) (view : View),
    JsNumber.jsLeb (clampedBounds bounds view).width (.fin view.width) = true ∧
    JsNumber.jsLeb (clampedBounds bounds view).height (.fin view.height) = true ∧
    (∀ a c : ℚ, ensureNumber bounds.1.1 0 = .fin a →
      ensureNumber bounds.2.1 view.width = .fin c →
      a ≤ c → a ≤ view.width - 1 → -1 ≤ c → 0 ≤ view.width →
      JsNumber.jsLeb (.fin 0) (clampedBounds bounds view).width = true) ∧
    (∀ a c : ℚ, ensureNumber bounds.1.2 0 = .fin a →
      ensureNumber bounds.2.2 view.height = .fin c →
      a ≤ c → a ≤ view.height - 1 → -1 ≤ c → 0 ≤ view.height →
      JsNumber.jsLeb (.fin 0) (clampedBounds bounds view).height = true) ∧
    (∀ fb : ℚ, ensureNumber .nan fb = .fin fb) ∧
    (∀ fb : ℚ, ensureNumber .posInf fb = .posInf ∧ ensureNumber .negInf fb = .negInf) := by
  intro bounds view
  refine ⟨clampedAxis_le bounds.1.1 bounds.2.1 view.width,
    clampedAxis_le bounds.1.2 bounds.2.2 view.height, ?_, ?_, fun _ => rfl,
    fun _ => ⟨rfl, rfl⟩⟩
  · intro a c h1 h2 hac haw hc hw
    show JsNumber.jsLeb (.fin 0)
      (JsNumber.jsAdd
        (JsNumber.jsSub
          (JsNumber.jsMin2 (JsNumber.jsCeil (ensureNumber bounds.2.1 view.width))
            (.fin (view.width - 1)))
          (JsNumber.jsMax2 (JsNumber.jsFloor (ensureNumber bounds.1.1 0)) (.fin 0)))
        (.fin 1)) = true
    rw [h1, h2]
    exact clampedAxis_nonneg a c view.width hac haw hc hw
  · intro a c h1 h2 hac haw hc hw
    show JsNumber.jsLeb (.fin 0)
      (JsNumber.jsAdd
        (JsNumber.jsSub
          (JsNumber.jsMin2 (JsNumber.jsCeil (ensureNumber bounds.2.2 view.height))
            (.fin (view.height - 1)))
          (JsNumber.jsMax2 (JsNumber.jsFloor (ensureNumber bounds.1.2 0)) (.fin 0)))
        (.fin 1)) = true
    rw [h1, h2]
    exact clampedAxis_nonneg a c view.height hac haw hc hw

/-- Witness for the amended claim C1 at a concrete overlapping box: in a
10-by-10 view, the box ((3/2, 2), (36/5, 8)) yields nonnegative width not
exceeding the view width. -/
theorem C1_clampedBounds_witness :
    JsNumber.jsLeb (.fin 0)
      (clampedBounds ((.fin (3/2), .fin 2), (.fin (36/5), .fin 8)) ⟨10, 10⟩).width = true ∧
    JsNumber.jsLeb
      (clampedBounds ((.fin (3/2), .fin 2), (.fin (36/5), .fin 8)) ⟨10, 10⟩).width
      (.fin 10) = true := by
  have h := C1_clampedBounds_amended ((.fin (3/2), .fin 2), (.fin (36/5), .fin 8)) ⟨10, 10⟩
  exact ⟨h.2.2.1 (3/2) (36/5) rfl rfl (by norm_num) (by norm_num) (by norm_num)
    (by norm_num), h.1⟩

/-- JS Math.round of a (finite) number: the floor of the value plus one half. -/
def jsRound (q : ℚ) : ℤ := ⌊q + 1/2⌋

/-- Value denoted by the toFixed(2) formatting used by the orientation
getter: the number rounded to two decimal places. -/
def toFixed2 (q : ℚ) : ℚ := (⌊q * 100 + 1/2⌋ : ℚ) / 100

/-- Modelled from the spec: utils.clamp (utils/utils.js is not among the
source files) bounds a value into the closed interval between lo and hi; the
spec states that the orientation setter clamps the scale to scaleExtent. -/
def clamp (v lo hi : ℚ) : ℚ := max lo (min v hi)

/-- The zoom range of every globe, from standardGlobe.scaleExtent; no
variant overrides it. -/
def scaleExtent : ℚ × ℚ := (25, 3000)

/-- Mutable projection state owned by a globe: the rotation triple, the
scale and the translate. -/
structure Proj where
  rotate0 : ℚ
  rotate1 : ℚ
  rotate2 : ℚ
  scale : ℚ
  translate : ℚ × ℚ
deriving DecidableEq, Repr

/-- Variant-dependent ingredients used by the orientation setter: the
rotation of a fresh default projection (newProjection(view).rotate()), the
fit-to-view scale (this.fit(view)) and the view center (this.center(view)).
They are kept abstract so every theorem quantifies over all variants. -/
structure GlobeCfg where
  defaultRotate : View → ℚ × ℚ × ℚ
  fitScale : View → ℚ
  centerOf : View → ℚ × ℚ

/-- Getter form of standardGlobe.orientation: the triple of the two negated
rotation angles formatted to two decimals and the rounded scale. -/
def orientationGet (p : Proj) : ℚ × ℚ × ℤ :=
  (toFixed2 (-p.rotate0), toFixed2 (-p.rotate1), jsRound p.scale)

/-- Setter form of standardGlobe.orientation, after the JS numeric coercion
of the three comma-separated parts of the orientation string (a missing or
non-numeric part coerces to NaN, a numeric part to its finite value): the
rotation is taken from the two angles when both are finite and otherwise
from the fresh default projection; the scale is clamped into scaleExtent
when finite and otherwise set to the fit scale; the translate is recentered
unconditionally. -/
def orientationSet (cfg : GlobeCfg) (view : View) (p : Proj)
    (lngPart latPart scalePart : JsNumber) : Proj :=
  let rot : ℚ × ℚ × ℚ :=
    match lngPart, latPart with
    | .fin a, .fin b => (-a, -b, p.rotate2)
    | _, _ => cfg.defaultRotate view
  let sc : ℚ :=
    match scalePart with
    | .fin s => clamp s scaleExtent.1 scaleExtent.2
    | _ => cfg.fitScale view
  { rotate0 := rot.1, rotate1 := rot.2.1, rotate2 := rot.2.2,
    scale := sc, translate := cfg.centerOf view }

/-- Feeding the getter output back into the setter: each part of the
serialized orientation string parses back to exactly the formatted finite
value. -/
def orientationRoundTrip (cfg : GlobeCfg) (view : View) (p : Proj) : Proj :=
  orientationSet cfg view p (.fin (orientationGet p).1)
    (.fin (orientationGet p).2.1) (.fin ((orientationGet p).2.2 : ℚ))

/-- Helper: rounding to two decimals moves a value by at most 1/200. -/
lemma toFixed2_close (q : ℚ) : |toFixed2 q - q| ≤ 1/200 := by
  have h1 : ((⌊q * 100 + 1/2⌋ : ℤ) : ℚ) ≤ q * 100 + 1/2 := Int.floor_le _
  have h2 : q * 100 + 1/2 - 1 < ((⌊q * 100 + 1/2⌋ : ℤ) : ℚ) := Int.sub_one_lt_floor _
  rw [toFixed2, abs_le]
  constructor <;> linarith

/-- Helper: Math.round moves a value by at most 1/2. -/
lemma jsRound_close (q : ℚ) : |((jsRound q : ℤ) : ℚ) - q| ≤ 1/2 := by
  have h1 : ((⌊q + 1/2⌋ : ℤ) : ℚ) ≤ q + 1/2 := Int.floor_le _
  have h2 : q + 1/2 - 1 < ((⌊q + 1/2⌋ : ℤ) : ℚ) := Int.sub_one_lt_floor _
  rw [jsRound, abs_le]
  constructor <;> linarith

/-- Concrete globe configuration used by closed instances: default rotation
zero, fit scale 100, centered translate. -/
def cfg0 : GlobeCfg :=
  { defaultRotate := fun _ => (0, 0, 0)
    fitScale := fun _ => 100
    centerOf := fun v => (v.width / 2, v.height / 2) }

/-- Concrete 800-by-600 view used by closed instances. -/
def view0 : View := ⟨800, 600⟩

/-- Projection state whose scale 5000 lies outside scaleExtent. -/
def p5000 : Proj :=
  { rotate0 := 0, rotate1 := 0, rotate2 := 0, scale := 5000, translate := (0, 0) }

/-- Claim C4 is false as stated: for a globe whose scale is 5000 (outside
scaleExtent), the orientation round trip clamps the scale to 3000, which
does not agree with 5000 to the nearest integer. -/
theorem C4_orientation_counterexample :
    (orientationRoundTrip cfg0 view0 p5000).scale = 3000 ∧
    ((jsRound p5000.scale : ℤ) : ℚ) = 5000 ∧
    ¬ |(orientationRoundTrip cfg0 view0 p5000).scale - p5000.scale| ≤ 1/2 := by
  refine ⟨?_, ?_, ?_⟩ <;>
    simp only [orientationRoundTrip, orientationSet, orientationGet, toFixed2,
      jsRound, clamp, scaleExtent, p5000, cfg0, view0] <;>
    norm_num

/-- Claim C4, amended: the orientation round trip is idempotent up to
rounding provided the globe's scale lies within scaleExtent (the setter
clamps the scale into that interval, so a scale outside it is moved to the
nearer endpoint): the rotation angles agree with the prior ones to 0.01
degrees, the third rotation component is preserved exactly, and the scale
becomes exactly the prior scale rounded to the nearest integer. -/
theorem C4_orientation_amended (cfg : GlobeCfg) (view : View) (p : Proj)
    (h1 : scaleExtent.1 ≤ p.scale) (h2 : p.scale ≤ scaleExtent.2) :
    |(orientationRoundTrip cfg view p).rotate0 - p.rotate0| ≤ 1/100 ∧
    |(orientationRoundTrip cfg view p).rotate1 - p.rotate1| ≤ 1/100 ∧
    (orientationRoundTrip cfg view p).rotate2 = p.rotate2 ∧
    (orientationRoundTrip cfg view p).scale = ((jsRound p.scale : ℤ) : ℚ) ∧
    |(orientationRoundTrip cfg view p).scale - p.scale| ≤ 1/2 := by
  simp only [scaleExtent] at h1 h2
  have hr0 := toFixed2_close (-p.rotate0)
  have hr1 := toFixed2_close (-p.rotate1)
  have hs := jsRound_close p.scale
  have hfl : ((⌊p.scale + 1/2⌋ : ℤ) : ℚ) ≤ p.scale + 1/2 := Int.floor_le _
  have hfg : p.scale + 1/2 - 1 < ((⌊p.scale + 1/2⌋ : ℤ) : ℚ) := Int.sub_one_lt_floor _
  have hub : (jsRound p.scale : ℤ) ≤ 3000 := by
    rw [jsRound]
    calc ⌊p.scale + 1/2⌋ ≤ ⌊(3000 : ℚ) + 1/2⌋ := Int.floor_le_floor (by linarith)
      _ = 3000 := by norm_num
  have hlb : (25 : ℤ) ≤ (jsRound p.scale : ℤ) := by
    rw [jsRound, Int.le_floor]
    push_cast
    linarith
  have hclamp : clamp ((jsRound p.scale : ℤ) : ℚ) 25 3000 = ((jsRound p.scale : ℤ) : ℚ) := by
    rw [clamp, min_eq_left (by exact_mod_cast hub), max_eq_right (by exact_mod_cast hlb)]
  rw [abs_le] at hr0 hr1
  refine ⟨?_, ?_, rfl, ?_, ?_⟩
  · show |-(toFixed2 (-p.rotate0)) - p.rotate0| ≤ 1/100
    rw [abs_le]; constructor <;> linarith [hr0.1, hr0.2]
  · show |-(toFixed2 (-p.rotate1)) - p.rotate1| ≤ 1/100
    rw [abs_le]; constructor <;> linarith [hr1.1, hr1.2]
  · exact hclamp
  · show |clamp ((jsRound p.scale : ℤ) : ℚ) 25 3000 - p.scale| ≤ 1/2
    rw [hclamp]; exact hs

/-- Witness for the amended claim C4: a globe with rotation (21/2, -81/4, 5)
and in-extent scale 100 keeps its third rotation component and its integer
scale exactly across the round trip. -/
theorem C4_orientation_witness :
    (orientationRoundTrip cfg0 view0
      { rotate0 := 21/2, rotate1 := -81/4, rotate2 := 5, scale := 100,
        translate := (1, 2) }).rotate2 = 5 ∧
    (orientationRoundTrip cfg0 view0
      { rotate0 := 21/2, rotate1 := -81/4, rotate2 := 5, scale := 100,
        translate := (1, 2) }).scale = 100 := by
  have h := C4_orientation_amended cfg0 view0
    { rotate0 := 21/2, rotate1 := -81/4, rotate2 := 5, scale := 100, translate := (1, 2) }
    (by norm_num [scaleExtent]) (by norm_num [scaleExtent])
  refine ⟨h.2.2.1, ?_⟩
  rw [h.2.2.2.1]
  norm_num [jsRound]

/-- Claim C7, confirmed: the orientation setter is permissive.  A
non-finite (missing or non-numeric) scale part sets the scale to the
fit-to-view scale; a finite scale part is clamped into scaleExtent; a
non-finite angle part sets the rotation to the fresh default projection's
rotation; and the translate is recentered to center(view) in every case. -/
theorem C7_orientationSet_permissive (cfg : GlobeCfg) (view : View) (p : Proj)
    (lngPart latPart scalePart : JsNumber) :
    (scalePart.isFinite = false →
      (orientationSet cfg view p lngPart latPart scalePart).scale = cfg.fitScale view) ∧
    (∀ s : ℚ, scalePart = .fin s →
      (orientationSet cfg view p lngPart latPart scalePart).scale =
        clamp s scaleExtent.1 scaleExtent.2) ∧
    ((lngPart.isFinite = false ∨ latPart.isFinite = false) →
      ((orientationSet cfg view p lngPart latPart scalePart).rotate0,
       (orientationSet cfg view p lngPart latPart scalePart).rotate1,
       (orientationSet cfg view p lngPart latPart scalePart).rotate2) =
        cfg.defaultRotate view) ∧
    (orientationSet cfg view p lngPart latPart scalePart).translate =
      cfg.centerOf view := by
  refine ⟨?_, ?_, ?_, ?_⟩
  · intro hs
    cases scalePart with
    | fin s => simp [JsNumber.isFinite] at hs
    | nan => rfl
    | posInf => rfl
    | negInf => rfl
  · intro s hs
    subst hs; rfl
  · intro hang
    cases lngPart <;> cases latPart <;>
      first
        | rfl
        | (simp only [JsNumber.isFinite] at hang
           rcases hang with h | h <;> exact absurd h (by simp))
  · cases lngPart <;> cases latPart <;> cases scalePart <;> rfl

/-- Witness for claim C7: with every part NaN the setter falls back to the
default rotation and fit scale and recenters the translate. -/
theorem C7_orientationSet_witness :
    (orientationSet cfg0 view0 p5000 .nan .nan .nan).scale = 100 ∧
    ((orientationSet cfg0 view0 p5000 .nan .nan .nan).rotate0,
     (orientationSet cfg0 view0 p5000 .nan .nan .nan).rotate1,
     (orientationSet cfg0 view0 p5000 .nan .nan .nan).rotate2) = (0, 0, 0) ∧
    (orientationSet cfg0 view0 p5000 .nan .nan .nan).translate = (400, 300) := by
  have h := C7_orientationSet_permissive cfg0 view0 p5000 .nan .nan .nan
  refine ⟨?_, ?_, ?_⟩
  · rw [h.1 rfl]; rfl
  · rw [h.2.2.1 (Or.inl rfl)]; rfl
  · rw [h.2.2.2]; show ((800 : ℚ)/2, (600 : ℚ)/2) = (400, 300); norm_num

/-- Local 2-by-2 linear map with the component layout used by
utils.distortion: the first screen component mixes d0 and d2, the second d1
and d3. -/
structure Dist4 where
  d0 : ℚ
  d1 : ℚ
  d2 : ℚ
  d3 : ℚ
deriving DecidableEq, Repr

/-- A wind value [u, v, magnitude]; the magnitude slot may hold null. -/
structure Wind3 where
  u : ℚ
  v : ℚ
  m : Option ℚ
deriving DecidableEq, Repr

/-- The distortion calculator utils.distortion as an abstract function of
the geographic point and the screen point (utils/utils.js is not among the
source files; the claims are about how distort uses the map it returns, so
the map stays a parameter and the theorems quantify over it). -/
def DistortionOf : Type := JsNumber → JsNumber → ℚ → ℚ → Dist4

/-- Source distort: scale the geographic components by scale, fetch the
local distortion map, overwrite the two screen-space components of the wind
vector, leave the third slot alone, and return the vector. -/
def distort (dist : DistortionOf) (lng lat : JsNumber) (x y scale : ℚ)
    (wind : Wind3) : Wind3 :=
  let u := wind.u * scale
  let v := wind.v * scale
  let d := dist lng lat x y
  { u := d.d0 * u + d.d2 * v, v := d.d1 * u + d.d3 * v, m := wind.m }

/-- Application of a 2-by-2 map to a plane vector, written from the claim's
words: the map columns multiply the two vector components. -/
def applyMap (d : Dist4) (p : ℚ × ℚ) : ℚ × ℚ :=
  (d.d0 * p.1 + d.d2 * p.2, d.d1 * p.1 + d.d3 * p.2)

/-- Claim C8, confirmed: the screen-space components of the returned wind
vector are exactly the scaled geographic vector (u times scale, v times
scale) pushed through the local 2-by-2 distortion map of the projection at
that point, and the vector returned is the mutated input vector (its
untouched magnitude slot still holds the input magnitude). -/
theorem C8_distort_applies_map (dist : DistortionOf) (lng lat : JsNumber)
    (x y scale : ℚ) (wind : Wind3) :
    ((distort dist lng lat x y scale wind).u,
     (distort dist lng lat x y scale wind).v) =
      applyMap (dist lng lat x y) (wind.u * scale, wind.v * scale) :=
  rfl

/-- Claim C10, confirmed: distort writes only the two screen-space slots of
the wind vector; the magnitude slot of the result is the magnitude slot of
the input, whatever the projection, point, scale and vector. -/
theorem C10_distort_preserves_magnitude (dist : DistortionOf)
    (lng lat : JsNumber) (x y scale : ℚ) (wind : Wind3) :
    (distort dist lng lat x y scale wind).m = wind.m :=
  rfl

/-- Classification of one pointer operation, from buildInputController. -/
inductive OpType where
  | click
  | spurious
  | drag
  | zoom
deriving DecidableEq, Repr

/-- One zoom event during an interaction: the pointer position it reports
and the zoom scale it carries. -/
structure MoveEvent where
  mx : ℚ
  my : ℚ
  scale : ℚ
deriving DecidableEq, Repr

/-- Squared Euclidean distance between two pointer positions.  Modelled
from the spec: utils.distance (utils/utils.js is not among the source
files) is the pointer distance whose comparisons against 0 and against the
4-pixel threshold the handler uses; both comparisons are expressed on the
square, which is equivalent for nonnegative thresholds. -/
def distSq (ax ay bx bY : ℚ) : ℚ := (ax - bx) ^ 2 + (ay - bY) ^ 2

/-- The drag slack MIN_MOVE, in pixels. -/
def MIN_MOVE : ℚ := 4

/-- One step of the zoom handler of buildInputController: while the
operation is still classified click or spurious, an event with unchanged
scale and squared movement below MIN_MOVE squared merely re-records click
(some movement) or spurious (no movement) and returns early; any other
event promotes to drag, and a scale change then stickily promotes to
zoom. -/
def stepOp (sx sy startScale : ℚ) (t : OpType) (e : MoveEvent) : OpType :=
  let dsq := distSq e.mx e.my sx sy
  if (t = .click ∨ t = .spurious) ∧ e.scale = startScale ∧ dsq < MIN_MOVE ^ 2 then
    (if 0 < dsq then .click else .spurious)
  else
    let t1 := if t = .click ∨ t = .spurious then .drag else t
    if e.scale ≠ startScale then .zoom else t1

/-- The type the operation has at zoomend: the fold of the handler over the
events of the interaction, starting from the initial click assumption made
at zoomstart. -/
def gestureType (sx sy startScale : ℚ) (events : List MoveEvent) : OpType :=
  events.foldl (stepOp sx sy startScale) .click

/-- Classification the code actually computes, stated directly: zoom as
soon as any event carries a changed scale; otherwise drag as soon as any
event moved the pointer at least MIN_MOVE pixels from the start; otherwise
the last event decides between click (moved) and spurious (not moved), and
an interaction with no events stays click. -/
def classify (sx sy startScale : ℚ) (events : List MoveEvent) : OpType :=
  if ∃ x ∈ events, x.scale ≠ startScale then .zoom
  else if ∃ x ∈ events, MIN_MOVE ^ 2 ≤ distSq x.mx x.my sx sy then .drag
  else
    match events.getLast? with
    | none => .click
    | some e => if 0 < distSq e.mx e.my sx sy then .click else .spurious

/-- Helper: without any scale change and without any large move, the
classification is still click or spurious. -/
lemma classify_small (sx sy s0 : ℚ) (es : List MoveEvent)
    (hP : ¬ ∃ x ∈ es, x.scale ≠ s0)
    (hQ : ¬ ∃ x ∈ es, MIN_MOVE ^ 2 ≤ distSq x.mx x.my sx sy) :
    classify sx sy s0 es = .click ∨ classify sx sy s0 es = .spurious := by
  rw [classify, if_neg hP, if_neg hQ]
  cases es.getLast? with
  | none => exact Or.inl rfl
  | some e =>
    by_cases h : 0 < distSq e.mx e.my sx sy
    · exact Or.inl (if_pos h)
    · exact Or.inr (if_neg h)

/-- Claim C6 is false as stated: the handler classifies by the displacement
of each event from the start point, not by total movement, and click versus
spurious is decided by the last event alone.  The interaction that moves 3
pixels away and back (total path 6 pixels, at least 4) ends spurious, not
drag and not click; the interaction that moves 5 pixels away and then back
to 1 pixel (final displacement below 4 pixels) ends drag, not click. -/
theorem C6_gesture_counterexample :
    gestureType 0 0 1 [⟨3, 0, 1⟩, ⟨0, 0, 1⟩] = .spurious ∧
    gestureType 0 0 1 [⟨5, 0, 1⟩, ⟨1, 0, 1⟩] = .drag := by
  refine ⟨?_, ?_⟩ <;>
    simp only [gestureType, List.foldl_cons, List.foldl_nil] <;>
    norm_num [stepOp, distSq, MIN_MOVE] <;>
    simp

/-- Claim C6, amended: movement is measured as the displacement of each
event's pointer position from the start position, not as accumulated path.
Any event with a changed scale classifies the interaction as zoom, stickily;
otherwise any event at least MIN_MOVE pixels from the start classifies it as
drag, stickily; otherwise the interaction is click when its last event lies
at positive displacement and spurious when its last event is back at the
start (an interaction with no move events stays click). -/
theorem C6_gesture_amended (sx sy s0 : ℚ) (events : List MoveEvent) :
    gestureType sx sy s0 events = classify sx sy s0 events := by
  induction events using List.reverseRecOn with
  | nil => rfl
  | append_singleton es e ih =>
    rw [gestureType, List.foldl_append, List.foldl_cons, List.foldl_nil,
      ← gestureType, ih]
    by_cases hP : ∃ x ∈ es, x.scale ≠ s0
    · have h1 : classify sx sy s0 es = .zoom := by
        simp only [classify]
        rw [if_pos hP]
      have h2 : classify sx sy s0 (es ++ [e]) = .zoom := by
        obtain ⟨x, hx, h⟩ := hP
        simp only [classify]
        rw [if_pos ⟨x, List.mem_append_left _ hx, h⟩]
      rw [h1, h2]
      by_cases hPe : e.scale = s0 <;> simp [stepOp, hPe]
    · by_cases hPe : e.scale = s0
      · have hPall : ¬ ∃ x ∈ es ++ [e], x.scale ≠ s0 := by
          rintro ⟨x, hx, h⟩
          rcases List.mem_append.mp hx with hx | hx
          · exact hP ⟨x, hx, h⟩
          · rw [List.mem_singleton.mp hx] at h
            exact h hPe
        by_cases hQ : ∃ x ∈ es, MIN_MOVE ^ 2 ≤ distSq x.mx x.my sx sy
        · have h1 : classify sx sy s0 es = .drag := by
            simp only [classify]
            rw [if_neg hP, if_pos hQ]
          have h2 : classify sx sy s0 (es ++ [e]) = .drag := by
            obtain ⟨x, hx, h⟩ := hQ
            simp only [classify]
            rw [if_neg hPall, if_pos ⟨x, List.mem_append_left _ hx, h⟩]
          rw [h1, h2]
          simp [stepOp, hPe]
        · by_cases hQe : MIN_MOVE ^ 2 ≤ distSq e.mx e.my sx sy
          · have h2 : classify sx sy s0 (es ++ [e]) = .drag := by
              simp only [classify]
              rw [if_neg hPall,
                if_pos ⟨e, List.mem_append_right _ (List.mem_singleton_self e), hQe⟩]
            rw [h2]
            rcases classify_small sx sy s0 es hP hQ with h1 | h1 <;>
              rw [h1] <;> simp [stepOp, hPe, not_lt.mpr hQe]
          · have hQall : ¬ ∃ x ∈ es ++ [e], MIN_MOVE ^ 2 ≤ distSq x.mx x.my sx sy := by
              rintro ⟨x, hx, h⟩
              rcases List.mem_append.mp hx with hx | hx
              · exact hQ ⟨x, hx, h⟩
              · rw [List.mem_singleton.mp hx] at h
                exact hQe h
            have h2 : classify sx sy s0 (es ++ [e]) =
                (if 0 < distSq e.mx e.my sx sy then OpType.click else .spurious) := by
              simp only [classify]
              rw [if_neg hPall, if_neg hQall]
              simp only [List.getLast?_concat]
            rw [h2]
            rcases classify_small sx sy s0 es hP hQ with h1 | h1 <;>
              rw [h1] <;> simp [stepOp, hPe, not_le.mp hQe]
      · have h2 : classify sx sy s0 (es ++ [e]) = .zoom := by
          simp only [classify]
          rw [if_pos ⟨e, List.mem_append_right _ (List.mem_singleton_self e), hPe⟩]
        rw [h2]
        by_cases hQ : ∃ x ∈ es, MIN_MOVE ^ 2 ≤ distSq x.mx x.my sx sy
        · have h1 : classify sx sy s0 es = .drag := by
            simp only [classify]
            rw [if_neg hP, if_pos hQ]
          rw [h1]
          simp [stepOp, hPe]
        · rcases classify_small sx sy s0 es hP hQ with h1 | h1 <;>
            rw [h1] <;> simp [stepOp, hPe]

/-- Outcome of a JS expression expected to yield a promise: a pending
promise built from a callable executor, an already-rejected promise with a
reason string, or a synchronously thrown error. -/
inductive PromiseOutcome where
  | pending (executorTag : String)
  | rejected (reason : String)
  | thrown (msg : String)
deriving DecidableEq, Repr

/-- A JS value as far as the Promise constructor cares: either a plain
(non-callable) object or a function, each carrying a tag for identity. -/
inductive JsValue where
  | object (tag : String)
  | function (tag : String)
deriving DecidableEq, Repr

/-- JS new Promise(executor): invokes a callable executor, and throws a
TypeError when the executor is not callable. -/
def newPromise (executor : JsValue) : PromiseOutcome :=
  match executor with
  | .function f => .pending f
  | .object _ => .thrown "TypeError: Promise resolver is not a function"

/-- The eight registered projection names, in registry order. -/
def globesNames : List String :=
  ["atlantis", "azimuthal_equidistant", "conic_equidistant", "equirectangular",
   "orthographic", "stereographic", "waterman", "winkel3"]

/-- Lookup in the globes Map: the builder when the name is registered.
Each entry maps a name to its builder function; the builder is identified
by its name. -/
def globesGet (name : String) : Option String :=
  if name ∈ globesNames then some name else none

/-- Result of calling a registered builder on the view.  Every builder
(atlantis through winkel3) returns newGlobe(...), and newGlobe returns
extend(standardGlobe(), source): a plain object, never a function. -/
def builderResult (tag : String) (view : View) : JsValue := .object tag

/-- Source buildGlobe: look the name up in the globes map; when absent,
return Promise.reject with the unknown-projection message; when present,
evaluate new Promise(builder(view)) — the globe object produced by the
builder is itself passed as the Promise executor.  The module-level view is
passed explicitly here. -/
def buildGlobe (projectionName : String) (view : View) : PromiseOutcome :=
  match globesGet projectionName with
  | none => .rejected ("Unknown projection: " ++ projectionName)
  | some b => newPromise (builderResult b view)

/-- Claim C5 meets a code bug: for an unregistered name buildGlobe does
reject with the unknown-projection reason and creates no state, but for
every one of the eight registered names it throws a TypeError instead of
producing a Globe, because new Promise(builder(view)) passes the globe
object (which is not callable) as the Promise executor. -/
theorem C5_buildGlobe_bug :
    (∀ name : String, name ∈ globesNames → ∀ view : View,
      buildGlobe name view = .thrown "TypeError: Promise resolver is not a function") ∧
    (∀ name : String, name ∉ globesNames → ∀ view : View,
      buildGlobe name view = .rejected ("Unknown projection: " ++ name)) ∧
    buildGlobe "atlantis" view0 = .thrown "TypeError: Promise resolver is not a function" ∧
    buildGlobe "mercator" view0 = .rejected "Unknown projection: mercator" := by
  refine ⟨?_, ?_, ?_, ?_⟩
  · intro name hn view
    rw [buildGlobe, globesGet, if_pos hn]
    rfl
  · intro name hn view
    rw [buildGlobe, globesGet, if_neg hn]
  · decide
  · decide

/-- Witness for the C5 theorem: both hypothesis-bearing conjuncts applied at
concrete names. -/
theorem C5_buildGlobe_witness :
    buildGlobe "winkel3" view0 = .thrown "TypeError: Promise resolver is not a function" ∧
    buildGlobe "globular" view0 = .rejected "Unknown projection: globular" := by
  have h := C5_buildGlobe_bug
  exact ⟨h.1 "winkel3" (by decide) view0, h.2.1 "globular" (by decide) view0⟩

/-- A field cell: the outside-boundary singleton NULL_WIND_VECTOR, the hole
singleton HOLE_VECTOR (same array contents, distinct identity — modelled as
distinct constructors, matching the reference comparison the code uses), or
a real vector written during interpolation. -/
inductive WindVec where
  | outside : WindVec
  | hole : WindVec
  | vec (u v : ℚ) (m : Option ℚ) : WindVec
deriving DecidableEq, Repr

/-- The integer sweep bounds driving the interpolation loops (the bounds
object produced by globe.bounds(view)). -/
structure SweepBounds where
  x : ℤ
  y : ℤ
  xMax : ℤ
  yMax : ℤ
deriving DecidableEq, Repr

/-- The collaborators of one interpolateField run: the mask visibility
test, the inverse projection (null, or a geographic pair whose longitude
finiteness the code checks), the primary grid sampler, the distortion
calculator and the velocity scale. -/
structure FieldEnv where
  maskVisible : ℤ → ℤ → Bool
  invert : ℤ → ℤ → Option (JsNumber × JsNumber)
  interpolate : JsNumber → JsNumber → Option Wind3
  distortionAt : DistortionOf
  velocityScale : ℚ

/-- The sampling performed for one visible stride pixel, before the
wind-or-hole fallback: null when the inverse projection yields nothing, the
longitude is not finite, or the grid has no sample there; otherwise the
distorted vector. -/
def pixelWind (env : FieldEnv) (x y : ℤ) : Option Wind3 :=
  match env.invert x y with
  | none => none
  | some (lng, lat) =>
    if lng.isFinite then
      match env.interpolate lng lat with
      | none => none
      | some w =>
        some (distort env.distortionAt lng lat (x : ℚ) (y : ℚ) env.velocityScale w)
    else none

/-- The cell written into the column for a visible stride pixel: the
sampled wind, or the hole singleton when sampling yielded nothing
(wind || HOLE_VECTOR in the source). -/
def cellWind (env : FieldEnv) (x y : ℤ) : WindVec :=
  match pixelWind env x y with
  | none => .hole
  | some w => .vec w.u w.v w.m

/-- A column as a sparse JS array: defined only at indices written. -/
def Column : Type := ℤ → Option WindVec

/-- The columns store as a sparse JS array of columns. -/
def Columns : Type := ℤ → Option Column

/-- One iteration of the y loop of interpolateColumn, at iteration index k
(the pixel row is bounds.y + 2k): when the mask shows the pixel, write the
cell at rows y and y + 1, otherwise leave the column untouched. -/
def colStep (env : FieldEnv) (b : SweepBounds) (x : ℤ) (col : Column) (k : ℕ) : Column :=
  let y := b.y + 2 * (k : ℤ)
  if env.maskVisible x y then
    fun j => if j = y ∨ j = y + 1 then some (cellWind env x y) else col j
  else col

/-- Number of iterations of the y loop: rows bounds.y, bounds.y + 2 and so
on while the row is at most bounds.yMax. -/
def ySteps (b : SweepBounds) : ℕ := (b.yMax - b.y + 2).toNat / 2

/-- The column contents after the first n iterations of the y loop. -/
def colSweep (env : FieldEnv) (b : SweepBounds) (x : ℤ) : ℕ → Column
  | 0 => fun _ => none
  | n + 1 => colStep env b x (colSweep env b x n) n

/-- Source interpolateColumn: the column after the whole y loop. -/
def interpolateColumn (env : FieldEnv) (b : SweepBounds) (x : ℤ) : Column :=
  colSweep env b x (ySteps b)

/-- One iteration of the x sweep at iteration index k (the column is
bounds.x + 2k): store the interpolated column at columns x and x + 1. -/
def colsStep (env : FieldEnv) (b : SweepBounds) (cols : Columns) (k : ℕ) : Columns :=
  let x := b.x + 2 * (k : ℤ)
  fun i => if i = x ∨ i = x + 1 then some (interpolateColumn env b x) else cols i

/-- Number of iterations of the x sweep: columns bounds.x, bounds.x + 2 and
so on while the column is strictly below bounds.xMax. -/
def xSteps (b : SweepBounds) : ℕ := (b.xMax - b.x + 1).toNat / 2

/-- The columns store after the first n iterations of the x sweep. -/
def colsSweep (env : FieldEnv) (b : SweepBounds) : ℕ → Columns
  | 0 => fun _ => none
  | n + 1 => colsStep env b (colsSweep env b n) n

/-- The columns store after the whole batched sweep of interpolateField
completes; the time slicing only spreads the same iterations over several
batches and does not change the resulting store. -/
def buildColumns (env : FieldEnv) (b : SweepBounds) : Columns :=
  colsSweep env b (xSteps b)

/-- Source field(x, y): round both coordinates with Math.round, then
evaluate (columns[x] && columns[x][y]) || NULL_WIND_VECTOR. -/
def fieldAt (cols : Columns) (x y : ℚ) : WindVec :=
  match cols (jsRound x) with
  | none => .outside
  | some col =>
    match col (jsRound y) with
    | none => .outside
    | some w => w

/-- Source field.isDefined: the magnitude slot of the looked-up vector is
not null; both sentinels carry a null magnitude slot. -/
def isDefined (cols : Columns) (x y : ℚ) : Bool :=
  match fieldAt cols x y with
  | .vec _ _ (some _) => true
  | _ => false

/-- Source field.isInsideBoundary: the looked-up value is not, by JS
reference identity, the NULL_WIND_VECTOR singleton; the hole singleton and
every written vector differ from it. -/
def isInsideBoundary (cols : Columns) (x y : ℚ) : Bool :=
  decide (fieldAt cols x y ≠ .outside)

/-- Source field.release: columns = [] empties the store, so every later
column lookup finds nothing. -/
def release (cols : Columns) : Columns := fun _ => none

/-- Source field.randomize with the random source made explicit: attempts
enumerates the successive sampled points (underscore random over the bounds
ranges, already integral so Math.round is the identity).  The do-while loop
samples again while the field is undefined at the sample and the
post-incremented safety net stays below 30; the second argument counts the
remaining retries, so 31 points are sampled at most and the loop exits with
the first defined sample or with the final sample. -/
def randomizeAux (cols : Columns) (attempts : ℕ → ℤ × ℤ) : ℕ → ℕ → ℤ × ℤ
  | i, 0 => attempts i
  | i, n + 1 =>
    let p := attempts i
    if isDefined cols (p.1 : ℚ) (p.2 : ℚ) then p
    else randomizeAux cols attempts (i + 1) n

/-- Source field.randomize: the do-while loop starting at the first sample
with safety net 0, which allows 30 further samples. -/
def randomize (cols : Columns) (attempts : ℕ → ℤ × ℤ) : ℤ × ℤ :=
  randomizeAux cols attempts 0 30

/-- The swept column representative of a pixel column: the stride column
whose 2-pixel block contains it. -/
def xRep (b : SweepBounds) (i : ℤ) : ℤ := b.x + 2 * (((i - b.x).toNat / 2 : ℕ) : ℤ)

/-- The swept row representative of a pixel row. -/
def yRep (b : SweepBounds) (j : ℤ) : ℤ := b.y + 2 * (((j - b.y).toNat / 2 : ℕ) : ℤ)

/-- The pixel column lies in a block the x sweep wrote. -/
def inSweepX (b : SweepBounds) (i : ℤ) : Prop :=
  b.x ≤ i ∧ (i - b.x).toNat / 2 < xSteps b

/-- The pixel row lies in a block the y loop wrote. -/
def inSweepY (b : SweepBounds) (j : ℤ) : Prop :=
  b.y ≤ j ∧ (j - b.y).toNat / 2 < ySteps b

instance (b : SweepBounds) (i : ℤ) : Decidable (inSweepX b i) :=
  inferInstanceAs (Decidable (And _ _))

instance (b : SweepBounds) (j : ℤ) : Decidable (inSweepY b j) :=
  inferInstanceAs (Decidable (And _ _))

/-- Helper: Math.round of an integer-valued coordinate is that integer. -/
lemma jsRound_intCast (z : ℤ) : jsRound ((z : ℤ) : ℚ) = z := by
  rw [jsRound, show ((z : ℤ) : ℚ) + 1/2 = (z : ℚ) + (1/2 : ℚ) from rfl,
    Int.floor_int_add]
  norm_num

/-- Helper: evaluation of the column built by the y loop, by induction on
the iteration count: a row holds the cell of its block representative when
its block was swept and the mask shows the representative, and nothing
otherwise. -/
lemma colSweep_eval (env : FieldEnv) (b : SweepBounds) (x : ℤ) :
    ∀ (n : ℕ) (j : ℤ),
      colSweep env b x n j =
        if b.y ≤ j ∧ (j - b.y).toNat / 2 < n then
          (if env.maskVisible x (b.y + 2 * (((j - b.y).toNat / 2 : ℕ) : ℤ))
           then some (cellWind env x (b.y + 2 * (((j - b.y).toNat / 2 : ℕ) : ℤ)))
           else none)
        else none := by
  intro n
  induction n with
  | zero =>
    intro j
    rw [colSweep, if_neg]
    rintro ⟨-, h⟩
    omega
  | succ n ih =>
    intro j
    show colStep env b x (colSweep env b x n) n j = _
    rw [colStep]
    by_cases hm : env.maskVisible x (b.y + 2 * (n : ℤ))
    · rw [if_pos hm]
      by_cases hj : j = b.y + 2 * (n : ℤ) ∨ j = b.y + 2 * (n : ℤ) + 1
      · show (if j = b.y + 2 * (n : ℤ) ∨ j = b.y + 2 * (n : ℤ) + 1
            then some (cellWind env x (b.y + 2 * (n : ℤ)))
            else colSweep env b x n j) = _
        rw [if_pos hj]
        have hy : b.y ≤ j := by omega
        have hk : (j - b.y).toNat / 2 = n := by omega
        rw [if_pos ⟨hy, by omega⟩, hk, if_pos hm]
      · show (if j = b.y + 2 * (n : ℤ) ∨ j = b.y + 2 * (n : ℤ) + 1
            then some (cellWind env x (b.y + 2 * (n : ℤ)))
            else colSweep env b x n j) = _
        rw [if_neg hj, ih j]
        push_neg at hj
        by_cases hc : b.y ≤ j ∧ (j - b.y).toNat / 2 < n
        · have hc2 : b.y ≤ j ∧ (j - b.y).toNat / 2 < n + 1 := ⟨hc.1, by omega⟩
          rw [if_pos hc, if_pos hc2]
        · rw [if_neg hc, if_neg]
          rintro ⟨h1, h2⟩
          exact hc ⟨h1, by omega⟩
    · rw [if_neg hm, ih j]
      by_cases hc : b.y ≤ j ∧ (j - b.y).toNat / 2 < n
      · have hc2 : b.y ≤ j ∧ (j - b.y).toNat / 2 < n + 1 := ⟨hc.1, by omega⟩
        rw [if_pos hc, if_pos hc2]
      · rw [if_neg hc]
        by_cases hc2 : b.y ≤ j ∧ (j - b.y).toNat / 2 < n + 1
        · rw [if_pos hc2]
          have hk : (j - b.y).toNat / 2 = n := by omega
          rw [hk, if_neg hm]
        · rw [if_neg hc2]

/-- Helper: evaluation of the columns store built by the x sweep, by
induction on the iteration count. -/
lemma colsSweep_eval (env : FieldEnv) (b : SweepBounds) :
    ∀ (n : ℕ) (i : ℤ),
      colsSweep env b n i =
        if b.x ≤ i ∧ (i - b.x).toNat / 2 < n then
          some (interpolateColumn env b (b.x + 2 * (((i - b.x).toNat / 2 : ℕ) : ℤ)))
        else none := by
  intro n
  induction n with
  | zero =>
    intro i
    rw [colsSweep, if_neg]
    rintro ⟨-, h⟩
    omega
  | succ n ih =>
    intro i
    show colsStep env b (colsSweep env b n) n i = _
    rw [colsStep]
    by_cases hi : i = b.x + 2 * (n : ℤ) ∨ i = b.x + 2 * (n : ℤ) + 1
    · show (if i = b.x + 2 * (n : ℤ) ∨ i = b.x + 2 * (n : ℤ) + 1
          then some (interpolateColumn env b (b.x + 2 * (n : ℤ)))
          else colsSweep env b n i) = _
      rw [if_pos hi]
      have hx : b.x ≤ i := by omega
      have hk : (i - b.x).toNat / 2 = n := by omega
      rw [if_pos ⟨hx, by omega⟩, hk]
    · show (if i = b.x + 2 * (n : ℤ) ∨ i = b.x + 2 * (n : ℤ) + 1
          then some (interpolateColumn env b (b.x + 2 * (n : ℤ)))
          else colsSweep env b n i) = _
      rw [if_neg hi, ih i]
      push_neg at hi
      by_cases hc : b.x ≤ i ∧ (i - b.x).toNat / 2 < n
      · have hc2 : b.x ≤ i ∧ (i - b.x).toNat / 2 < n + 1 := ⟨hc.1, by omega⟩
        rw [if_pos hc, if_pos hc2]
      · rw [if_neg hc, if_neg]
        rintro ⟨h1, h2⟩
        exact hc ⟨h1, by omega⟩

/-- Helper: full evaluation of a field lookup at an integer pixel: the
cell of the pixel's 2-by-2 block representative when both block coordinates
were swept and the mask shows the representative, the outside sentinel
otherwise. -/
lemma fieldAt_eval (env : FieldEnv) (b : SweepBounds) (x y : ℤ) :
    fieldAt (buildColumns env b) ((x : ℤ) : ℚ) ((y : ℤ) : ℚ) =
      if inSweepX b x ∧ inSweepY b y then
        (if env.maskVisible (xRep b x) (yRep b y)
         then cellWind env (xRep b x) (yRep b y)
         else .outside)
      else .outside := by
  rw [fieldAt, jsRound_intCast, jsRound_intCast, buildColumns, colsSweep_eval]
  by_cases hx : inSweepX b x
  · rw [if_pos (show b.x ≤ x ∧ (x - b.x).toNat / 2 < xSteps b from hx)]
    show (match interpolateColumn env b (xRep b x) y with
      | none => WindVec.outside
      | some w => w) = _
    rw [interpolateColumn, colSweep_eval]
    by_cases hy : inSweepY b y
    · have hxy : inSweepX b x ∧ inSweepY b y := ⟨hx, hy⟩
      rw [if_pos (show b.y ≤ y ∧ (y - b.y).toNat / 2 < ySteps b from hy), if_pos hxy,
        show b.y + 2 * (((y - b.y).toNat / 2 : ℕ) : ℤ) = yRep b y from rfl]
      by_cases hm : env.maskVisible (xRep b x) (yRep b y)
      · rw [if_pos hm, if_pos hm]
      · rw [if_neg hm, if_neg hm]
    · rw [if_neg (show ¬ (b.y ≤ y ∧ (y - b.y).toNat / 2 < ySteps b) from hy),
        if_neg (show ¬ (inSweepX b x ∧ inSweepY b y) from fun h => hy h.2)]
  · rw [if_neg (show ¬ (b.x ≤ x ∧ (x - b.x).toNat / 2 < xSteps b) from hx),
      if_neg (show ¬ (inSweepX b x ∧ inSweepY b y) from fun h => hx h.1)]

/-- Helper: a defined pixel is inside the boundary (its cell is a written
vector, which is never the outside singleton). -/
lemma isDefined_inside (cols : Columns) (x y : ℚ)
    (h : isDefined cols x y = true) : isInsideBoundary cols x y = true := by
  rw [isDefined] at h
  rw [isInsideBoundary, decide_eq_true_eq]
  intro hout
  rw [hout] at h
  exact Bool.false_ne_true h

/-- Unfolding equation of the randomize loop for a positive retry count. -/
lemma randomizeAux_succ (cols : Columns) (attempts : ℕ → ℤ × ℤ) (i n : ℕ) :
    randomizeAux cols attempts i (n + 1) =
      if isDefined cols (((attempts i).1 : ℤ) : ℚ) (((attempts i).2 : ℤ) : ℚ)
      then attempts i
      else randomizeAux cols attempts (i + 1) n := rfl

/-- Helper: when every remaining sample is undefined, the loop runs out of
retries and returns the final sample. -/
lemma randomizeAux_all_undef (cols : Columns) (attempts : ℕ → ℤ × ℤ) :
    ∀ (n i : ℕ),
      (∀ k : ℕ, k ≤ n →
        isDefined cols (((attempts (i + k)).1 : ℤ) : ℚ)
          (((attempts (i + k)).2 : ℤ) : ℚ) = false) →
      randomizeAux cols attempts i n = attempts (i + n) := by
  intro n
  induction n with
  | zero =>
    intro i h
    rfl
  | succ n ih =>
    intro i h
    have h0 := h 0 (by omega)
    rw [Nat.add_zero] at h0
    rw [randomizeAux_succ, if_neg (by rw [h0]; exact Bool.false_ne_true)]
    have hrec := ih (i + 1) (fun k hk => by
      have hh := h (k + 1) (by omega)
      rw [show i + (k + 1) = i + 1 + k by omega] at hh
      exact hh)
    rw [hrec, show i + 1 + n = i + (n + 1) by omega]

/-- Helper: when some sample within the remaining retries is defined, the
loop exits at a defined sample. -/
lemma randomizeAux_defined (cols : Columns) (attempts : ℕ → ℤ × ℤ) :
    ∀ (n i : ℕ),
      (∃ k : ℕ, k ≤ n ∧
        isDefined cols (((attempts (i + k)).1 : ℤ) : ℚ)
          (((attempts (i + k)).2 : ℤ) : ℚ) = true) →
      isDefined cols (((randomizeAux cols attempts i n).1 : ℤ) : ℚ)
        (((randomizeAux cols attempts i n).2 : ℤ) : ℚ) = true := by
  intro n
  induction n with
  | zero =>
    intro i h
    obtain ⟨k, hk, hdef⟩ := h
    have hk0 : k = 0 := by omega
    subst hk0
    rw [Nat.add_zero] at hdef
    exact hdef
  | succ n ih =>
    intro i h
    by_cases h0 : isDefined cols (((attempts i).1 : ℤ) : ℚ) (((attempts i).2 : ℤ) : ℚ) = true
    · rw [randomizeAux_succ, if_pos h0]
      exact h0
    · rw [randomizeAux_succ, if_neg h0]
      apply ih (i + 1)
      obtain ⟨k, hk, hdef⟩ := h
      cases k with
      | zero =>
        rw [Nat.add_zero] at hdef
        exact absurd hdef h0
      | succ k =>
        refine ⟨k, by omega, ?_⟩
        rw [show i + 1 + k = i + (k + 1) by omega]
        exact hdef

/-- Claim C9, confirmed: after release, every lookup at every point finds
no column and deterministically returns the outside-boundary sentinel. -/
theorem C9_release_lookup (cols : Columns) (x y : ℚ) :
    fieldAt (release cols) x y = .outside := rfl

/-- Claim C2, amended.  Lookup classification at an integer pixel is
decided by the pixel's 2-by-2 block representative, not by the pixel
itself: a pixel whose block representative was not swept, or whose
representative the mask hides, yields the outside sentinel (even when the
pixel itself is visible); a swept, visible representative whose sampling
yielded no vector yields the hole sentinel; a swept, visible representative
with a sampled vector yields that vector (even at the pixel's replicated,
possibly invisible, neighbors); and isDefined holds exactly when the
representative is swept, visible, and sampled a vector with a non-null
magnitude. -/
theorem C2_field_amended (env : FieldEnv) (b : SweepBounds) (x y : ℤ) :
    (¬ (inSweepX b x ∧ inSweepY b y) →
      fieldAt (buildColumns env b) ((x : ℤ) : ℚ) ((y : ℤ) : ℚ) = .outside) ∧
    (inSweepX b x ∧ inSweepY b y →
      env.maskVisible (xRep b x) (yRep b y) = false →
      fieldAt (buildColumns env b) ((x : ℤ) : ℚ) ((y : ℤ) : ℚ) = .outside) ∧
    (inSweepX b x ∧ inSweepY b y →
      env.maskVisible (xRep b x) (yRep b y) = true →
      pixelWind env (xRep b x) (yRep b y) = none →
      fieldAt (buildColumns env b) ((x : ℤ) : ℚ) ((y : ℤ) : ℚ) = .hole) ∧
    (∀ w : Wind3, inSweepX b x ∧ inSweepY b y →
      env.maskVisible (xRep b x) (yRep b y) = true →
      pixelWind env (xRep b x) (yRep b y) = some w →
      fieldAt (buildColumns env b) ((x : ℤ) : ℚ) ((y : ℤ) : ℚ) = .vec w.u w.v w.m) ∧
    (isDefined (buildColumns env b) ((x : ℤ) : ℚ) ((y : ℤ) : ℚ) = true ↔
      (inSweepX b x ∧ inSweepY b y) ∧
      env.maskVisible (xRep b x) (yRep b y) = true ∧
      ∃ w : Wind3, pixelWind env (xRep b x) (yRep b y) = some w ∧ w.m ≠ none) := by
  refine ⟨?_, ?_, ?_, ?_, ?_⟩
  · intro h
    rw [fieldAt_eval, if_neg h]
  · intro h hm
    rw [fieldAt_eval, if_pos h, hm, if_neg Bool.false_ne_true]
  · intro h hm hp
    rw [fieldAt_eval, if_pos h, if_pos hm, cellWind, hp]
  · intro w h hm hp
    rw [fieldAt_eval, if_pos h, if_pos hm, cellWind, hp]
  · rw [isDefined, fieldAt_eval]
    by_cases h : inSweepX b x ∧ inSweepY b y
    · rw [if_pos h]
      by_cases hm : env.maskVisible (xRep b x) (yRep b y) = true
      · rw [if_pos hm, cellWind]
        cases hp : pixelWind env (xRep b x) (yRep b y) with
        | none => simp [h, hm]
        | some w =>
          cases hmag : w.m with
          | none => simp [h, hm, hp, hmag]
          | some q => simp [h, hm, hp, hmag]
      · rw [if_neg hm]
        simp [hm]
    · rw [if_neg h]
      simp [h]

/-- Concrete environment in which only pixel (0, 0) is visible and the
grid supplies the vector (1, 2) with magnitude 3 everywhere; the
distortion map is the identity and the velocity scale is 1. -/
def env0 : FieldEnv :=
  { maskVisible := fun x y => decide (x = 0 ∧ y = 0)
    invert := fun _ _ => some (.fin 0, .fin 0)
    interpolate := fun _ _ => some ⟨1, 2, some 3⟩
    distortionAt := fun _ _ _ _ => ⟨1, 0, 0, 1⟩
    velocityScale := 1 }

/-- Sweep bounds covering columns 0 and rows 0 to 1. -/
def b0 : SweepBounds := ⟨0, 0, 2, 1⟩

/-- Helper: in env0 the sampling at the origin yields the identity-mapped
vector. -/
lemma pixelWind_env0 : pixelWind env0 0 0 = some ⟨1, 2, some 3⟩ := by
  rw [pixelWind]
  show (if (JsNumber.fin 0).isFinite then _ else none) = _
  rw [if_pos (show (JsNumber.fin 0).isFinite = true from rfl)]
  show some (distort env0.distortionAt (.fin 0) (.fin 0) ((0 : ℤ) : ℚ) ((0 : ℤ) : ℚ)
    env0.velocityScale ⟨1, 2, some 3⟩) = _
  rw [distort]
  norm_num [env0]

/-- Helper: the cell written at the origin in env0. -/
lemma cellWind_env0 : cellWind env0 0 0 = .vec 1 2 (some 3) := by
  rw [cellWind, pixelWind_env0]

/-- Helper: the block containing pixel (0, 1) has representative (0, 0), so
the lookup at the masked-invisible pixel (0, 1) yields the vector written
for (0, 0). -/
lemma fieldAt_env0_01 :
    fieldAt (buildColumns env0 b0) ((0 : ℤ) : ℚ) ((1 : ℤ) : ℚ) = .vec 1 2 (some 3) := by
  rw [fieldAt_eval]
  have hxy : inSweepX b0 0 ∧ inSweepY b0 1 := by
    exact ⟨⟨by decide, by decide⟩, ⟨by decide, by decide⟩⟩
  rw [if_pos hxy, show xRep b0 0 = 0 from rfl, show yRep b0 1 = 0 from rfl,
    if_pos (show env0.maskVisible 0 0 = true from rfl)]
  exact cellWind_env0

/-- Helper: lookup at the origin itself in env0. -/
lemma fieldAt_env0_00 :
    fieldAt (buildColumns env0 b0) ((0 : ℤ) : ℚ) ((0 : ℤ) : ℚ) = .vec 1 2 (some 3) := by
  rw [fieldAt_eval]
  have hxy : inSweepX b0 0 ∧ inSweepY b0 0 := by
    exact ⟨⟨by decide, by decide⟩, ⟨by decide, by decide⟩⟩
  rw [if_pos hxy, show xRep b0 0 = 0 from rfl, show yRep b0 0 = 0 from rfl,
    if_pos (show env0.maskVisible 0 0 = true from rfl)]
  exact cellWind_env0

/-- Helper: the origin of env0 is a defined field point. -/
lemma isDefined_env0_00 :
    isDefined (buildColumns env0 b0) ((0 : ℤ) : ℚ) ((0 : ℤ) : ℚ) = true := by
  rw [isDefined, fieldAt_env0_00]

/-- Claim C2 is false as stated: pixel (0, 1) lies outside the mask's
visible region (only (0, 0) is visible), yet the completed field's lookup
there returns the real vector written for its block representative (0, 0),
not the outside-boundary sentinel. -/
theorem C2_field_counterexample :
    env0.maskVisible 0 1 = false ∧
    fieldAt (buildColumns env0 b0) ((0 : ℤ) : ℚ) ((1 : ℤ) : ℚ) = .vec 1 2 (some 3) ∧
    WindVec.vec 1 2 (some 3) ≠ .outside := by
  exact ⟨rfl, fieldAt_env0_01, by simp⟩

/-- Witness for the amended claim C2: a pixel whose block was never swept
reads the outside sentinel, and the swept visible origin reads its sampled
vector. -/
theorem C2_field_witness :
    fieldAt (buildColumns env0 b0) ((9 : ℤ) : ℚ) ((9 : ℤ) : ℚ) = .outside ∧
    fieldAt (buildColumns env0 b0) ((0 : ℤ) : ℚ) ((0 : ℤ) : ℚ) = .vec 1 2 (some 3) := by
  have h1 := C2_field_amended env0 b0 9 9
  have h2 := C2_field_amended env0 b0 0 0
  constructor
  · exact h1.1 (by decide)
  · exact h2.2.2.2.1 ⟨1, 2, some 3⟩
      ⟨⟨by decide, by decide⟩, ⟨by decide, by decide⟩⟩ rfl pixelWind_env0

/-- Environment whose mask hides every pixel: the built field is the
outside sentinel everywhere. -/
def envF : FieldEnv :=
  { maskVisible := fun _ _ => false
    invert := fun _ _ => none
    interpolate := fun _ _ => none
    distortionAt := fun _ _ _ _ => ⟨0, 0, 0, 0⟩
    velocityScale := 1 }

/-- Sweep bounds covering columns 0 to 3 and rows 0 to 4. -/
def bF : SweepBounds := ⟨0, 0, 4, 4⟩

/-- Helper: with an all-hidden mask every lookup is the outside sentinel. -/
lemma fieldAt_envF (x y : ℤ) :
    fieldAt (buildColumns envF bF) ((x : ℤ) : ℚ) ((y : ℤ) : ℚ) = .outside := by
  rw [fieldAt_eval]
  by_cases h : inSweepX bF x ∧ inSweepY bF y
  · rw [if_pos h, show envF.maskVisible (xRep bF x) (yRep bF y) = false from rfl,
      if_neg Bool.false_ne_true]
  · rw [if_neg h]

/-- Helper: with an all-hidden mask no point is defined. -/
lemma isDefined_envF (x y : ℤ) :
    isDefined (buildColumns envF bF) ((x : ℤ) : ℚ) ((y : ℤ) : ℚ) = false := by
  rw [isDefined, fieldAt_envF]

/-- Claim C3 is false as stated: on the all-hidden field, a random source
that always proposes (0, 0) exhausts the safety net, and randomize returns
(0, 0) — a point for which isInsideBoundary is false, contradicting the
claim that the returned point always lies inside the boundary. -/
theorem C3_randomize_counterexample :
    randomize (buildColumns envF bF) (fun _ => (0, 0)) = (0, 0) ∧
    isInsideBoundary (buildColumns envF bF) ((0 : ℤ) : ℚ) ((0 : ℤ) : ℚ) = false := by
  constructor
  · have h := randomizeAux_all_undef (buildColumns envF bF) (fun _ => (0, 0)) 30 0
      (fun k _ => isDefined_envF 0 0)
    rw [randomize, h]
  · rw [isInsideBoundary, fieldAt_envF]
    simp

/-- Claim C3, amended: randomize samples up to 31 points (the initial
sample plus 30 safety-net retries).  It returns the first sampled point at
which isDefined holds — and a defined point always satisfies
isInsideBoundary — but when all 31 samples are undefined it returns the
31st sample unchanged, a point that may fail isDefined and even
isInsideBoundary. -/
theorem C3_randomize_amended (cols : Columns) (attempts : ℕ → ℤ × ℤ) :
    ((∀ k : ℕ, k ≤ 30 →
        isDefined cols (((attempts k).1 : ℤ) : ℚ) (((attempts k).2 : ℤ) : ℚ) = false) →
      randomize cols attempts = attempts 30) ∧
    ((∃ k : ℕ, k ≤ 30 ∧
        isDefined cols (((attempts k).1 : ℤ) : ℚ) (((attempts k).2 : ℤ) : ℚ) = true) →
      isDefined cols (((randomize cols attempts).1 : ℤ) : ℚ)
        (((randomize cols attempts).2 : ℤ) : ℚ) = true) ∧
    (∀ x y : ℚ, isDefined cols x y = true → isInsideBoundary cols x y = true) := by
  refine ⟨?_, ?_, fun x y h => isDefined_inside cols x y h⟩
  · intro h
    have hall := randomizeAux_all_undef cols attempts 30 0 (fun k hk => by
      rw [Nat.zero_add]
      exact h k hk)
    rw [randomize, hall, Nat.zero_add]
  · intro h
    rw [randomize]
    apply randomizeAux_defined cols attempts 30 0
    obtain ⟨k, hk, hdef⟩ := h
    exact ⟨k, hk, by rw [Nat.zero_add]; exact hdef⟩

/-- Witness for the amended claim C3: on the all-hidden field a constant
proposal (7, 7) survives all 31 attempts and is returned, and on the env0
field a defined point implies an inside-boundary point. -/
theorem C3_randomize_witness :
    randomize (buildColumns envF bF) (fun _ => (7, 7)) = (7, 7) ∧
    isInsideBoundary (buildColumns env0 b0) ((0 : ℤ) : ℚ) ((0 : ℤ) : ℚ) = true := by
  constructor
  · exact (C3_randomize_amended (buildColumns envF bF) (fun _ => (7, 7))).1
      (fun k _ => isDefined_envF 7 7)
  · exact (C3_randomize_amended (buildColumns env0 b0) (fun _ => (0, 0))).2.2
      ((0 : ℤ) : ℚ) ((0 : ℤ) : ℚ) isDefined_env0_00

end Globes
